import Mathlib

/-!
Verification of the ai-wrapper repository: a shallow embedding of its data
model (internal/ai/model.go), the OpenAI transport client
(internal/ai/provider/openai/client.go), the SSE streaming decoder
(internal/ai/provider/openai/chat.go) and the service registry
(internal/ai/service.go), together with theorems settling the claims about
retry behaviour, stream-chunk invariants and registry lookups.

JSON encoding/decoding is the standard library's concern and is out of
scope; wherever the Go code calls json.Unmarshal we parameterise the
embedding by an oracle function (String to Option of the decoded value),
instantiated concretely in scenario theorems.
-/

deriving instance DecidableEq for Except

namespace AIWrapper

/-- strings.HasPrefix: whether `p` is a prefix of `s`. Stated over the
character sequence; for the ASCII prefixes the decoder uses this coincides
with Go's byte-level check. -/
def strStartsWith (s p : String) : Bool :=
  p.data.isPrefixOf s.data

/-- Dropping the first `n` characters of `s` (the effect of
strings.TrimPrefix once the prefix is known to be present). -/
def strDrop (s : String) (n : Nat) : String :=
  String.mk (s.data.drop n)

/-! ## Data model (internal/ai/model.go) -/

/-- Message: a single conversation message with role and content. -/
structure Message where
  role : String
  content : String
deriving DecidableEq

/-- ChatRequest: a chat completion request. -/
structure ChatRequest where
  messages : List Message := []
  model : String := ""
  maxTokens : Nat := 0
  temperature : Int := 0
  stream : Bool := false
deriving DecidableEq

/-- Usage: token usage counters. -/
structure Usage where
  promptTokens : Nat := 0
  completionTokens : Nat := 0
  totalTokens : Nat := 0
deriving DecidableEq

/-- ChatResponse: a non-streaming chat completion response. -/
structure ChatResponse where
  id : String := ""
  model : String := ""
  content : String := ""
  usage : Usage := {}
  created : Int := 0
deriving DecidableEq

/-- StreamResponse: one streaming chat response chunk. The Go `error`
interface value is modelled by an optional message string. -/
structure StreamResponse where
  id : String := ""
  content : String := ""
  done : Bool := false
  error : Option String := none
deriving DecidableEq

/-- A chunk is terminal when it has `done = true` or its `error` is set. -/
def StreamResponse.isTerminal (c : StreamResponse) : Bool :=
  c.done || c.error.isSome

/-- Number of terminal chunks in a sequence. -/
def countTerminal (l : List StreamResponse) : Nat :=
  (l.filter (fun c => c.isTerminal)).length

/-- Config: provider configuration. `timeout` is in nanoseconds, mirroring
Go's time.Duration (a signed 64-bit count of nanoseconds); `maxRetries`
mirrors Go's signed int. -/
structure Config where
  apiKey : String := ""
  baseURL : String := ""
  timeout : Int := 0
  maxRetries : Int := 0
  extraParams : List (String × String) := []
deriving DecidableEq

/-! ## OpenAI client (internal/ai/provider/openai/client.go) -/

def DefaultBaseURL : String := "https://api.openai.com/v1"

/-- Thirty seconds in nanoseconds (Go: 30 * time.Second). -/
def DefaultTimeout : Int := 30000000000

/-- Client: the OpenAI API client state after construction. The embedded
http.Client is represented only by its timeout. -/
structure Client where
  apiKey : String
  baseURL : String
  timeout : Int
  maxRetries : Int
deriving DecidableEq

/-- NewClient: constructs a client, substituting defaults for zero-valued
BaseURL, Timeout and MaxRetries exactly as the Go code does. -/
def NewClient (config : Config) : Client :=
  { apiKey := config.apiKey
    baseURL := if config.baseURL = "" then DefaultBaseURL else config.baseURL
    timeout := if config.timeout = 0 then DefaultTimeout else config.timeout
    maxRetries := if config.maxRetries = 0 then 3 else config.maxRetries }

/-- Outcome of one httpClient.Do call: either the call itself errors
(`netErr`, Do returns a nil response) or a response arrives with a status
code and a body. -/
inductive AttemptResult where
  | netErr : String → AttemptResult
  | resp : Nat → String → AttemptResult
deriving DecidableEq

/-- The decoded vendor error envelope ({"error":{message,type,code}}). -/
structure ApiErrorEnvelope where
  code : String := ""
  message : String := ""
  errType : String := ""
deriving DecidableEq

/-- The failure modes of Client.makeRequest:
`requestFailed` is the "request failed after %d retries: %w" wrap of a
network error; `providerError` is the decoded vendor envelope (ai.Error);
`httpError` is the "API error: %d %s" fallback; `panicNilResp` marks the
nil-pointer dereference the Go code hits when the retry loop ran zero
iterations (possible only when maxRetries is negative). -/
inductive ReqError where
  | requestFailed : Int → String → ReqError
  | providerError : String → String → String → ReqError
  | httpError : Nat → String → ReqError
  | panicNilResp : ReqError
deriving DecidableEq

/-- Whether makeRequest's loop retries after this attempt: the network
call itself errored, or the status is a server error (>= 500). This is the
negation of the Go break condition `err == nil && resp.StatusCode < 500`. -/
def retryable : AttemptResult → Bool
  | .netErr _ => true
  | .resp st _ => 500 ≤ st

/-- The retry loop of Client.makeRequest, unrolled over the attempt index.
`i` is the current loop index, `fuel` the number of indices left before
`i == maxRetries`. Returns (last attempt's result, attempts made, the list
of sleep durations in seconds in order, whether the last response body was
left open). The body is left open exactly when the loop broke on
`err == nil && status < 500`; in every other exit the body was closed
before breaking. -/
def retryLoop (attempts : Nat → AttemptResult) :
    Nat → Nat → AttemptResult × Nat × List Nat × Bool
  | i, 0 =>
    match attempts i with
    | .netErr m => (.netErr m, 1, [], false)
    | .resp st b =>
      if st < 500 then (.resp st b, 1, [], true) else (.resp st b, 1, [], false)
  | i, fuel + 1 =>
    match attempts i with
    | .netErr _ =>
      match retryLoop attempts (i + 1) fuel with
      | (r, n, ss, op) => (r, n + 1, (i + 1) :: ss, op)
    | .resp st b =>
      if st < 500 then (.resp st b, 1, [], true)
      else
        match retryLoop attempts (i + 1) fuel with
        | (r, n, ss, op) => (r, n + 1, (i + 1) :: ss, op)

/-- Client.makeRequest. `attempts` gives the outcome of the i-th
httpClient.Do call; `decodeEnv` is the json.Unmarshal oracle for the
vendor error envelope (it must return none on the empty string, as
json.Unmarshal fails on empty input; scenario instances satisfy this).
Reading an already-closed response body yields the empty string (io.ReadAll
returns an error that the Go code discards). Returns (result, number of
attempts made, sleep schedule in seconds). -/
def Client.makeRequest (c : Client)
    (decodeEnv : String → Option ApiErrorEnvelope)
    (attempts : Nat → AttemptResult) :
    Except ReqError (Nat × String) × Nat × List Nat :=
  if c.maxRetries < 0 then
    (.error .panicNilResp, 0, [])
  else
    match retryLoop attempts 0 c.maxRetries.toNat with
    | (r, n, ss, bodyOpen) =>
      match r with
      | .netErr msg => (.error (.requestFailed c.maxRetries msg), n, ss)
      | .resp st body =>
        if 400 ≤ st then
          let b := if bodyOpen then body else ""
          match decodeEnv b with
          | some env => (.error (.providerError env.code env.message env.errType), n, ss)
          | none => (.error (.httpError st b), n, ss)
        else (.ok (st, body), n, ss)

/-! ## Streaming decoder (internal/ai/provider/openai/chat.go) -/

/-- One choice of the vendor stream-chunk schema: the delta and the
optional finish_reason. -/
structure StreamChoice where
  index : Nat := 0
  deltaRole : String := ""
  deltaContent : String := ""
  finishReason : Option String := none
deriving DecidableEq

/-- The vendor stream-chunk schema (openAIStreamResponse). -/
structure OpenAIStreamResponse where
  id : String := ""
  object : String := ""
  created : Int := 0
  model : String := ""
  choices : List StreamChoice := []
deriving DecidableEq

/-- Message of the chunk emitted when scanner.Err() is non-nil. -/
def scanErrMsg : String := "stream scanning error"

/-- Message of the chunk emitted when a data payload fails to decode. -/
def parseErrMsg : String := "failed to parse stream response"

/-- The goroutine body of Client.ChatStream, as a function from the lines
the bufio.Scanner yields to the chunk sequence sent on the channel.
`unmarshal` is the json.Unmarshal oracle for the stream-chunk schema;
`readErr` records whether the scan loop ended because of a read error
(scanner.Err() non-nil) rather than clean EOF; `respID` is the
`responseID` accumulator. Early `return`s of the goroutine appear as
right-hand sides that drop the remaining lines. -/
def decodeLines (unmarshal : String → Option OpenAIStreamResponse) :
    List String → Bool → String → List StreamResponse
  | [], readErr, _ =>
    if readErr then [{ error := some scanErrMsg }] else []
  | line :: rest, readErr, respID =>
    if line = "" ∨ strStartsWith line ":" = true then
      decodeLines unmarshal rest readErr respID
    else if strStartsWith line "data: " = true then
      let data := strDrop line 6
      if data = "[DONE]" then
        [{ id := respID, done := true }]
      else
        match unmarshal data with
        | none => [{ error := some parseErrMsg }]
        | some sr =>
          match sr.choices with
          | [] => decodeLines unmarshal rest readErr sr.id
          | c :: _ =>
            if c.finishReason.isSome then
              [{ id := sr.id, content := c.deltaContent, done := true }]
            else
              { id := sr.id, content := c.deltaContent } ::
                decodeLines unmarshal rest readErr sr.id
    else
      decodeLines unmarshal rest readErr respID

/-- The value of the `responseID` accumulator after processing a list of
lines none of which ends the sequence early: updated on every successful
unmarshal of a non-[DONE] data payload, exactly as the Go assignment
`responseID = streamResp.ID`. -/
def trackId (unmarshal : String → Option OpenAIStreamResponse) :
    List String → String → String
  | [], respID => respID
  | line :: rest, respID =>
    if line = "" ∨ strStartsWith line ":" = true then
      trackId unmarshal rest respID
    else if strStartsWith line "data: " = true then
      if strDrop line 6 = "[DONE]" then respID
      else
        match unmarshal (strDrop line 6) with
        | none => respID
        | some sr => trackId unmarshal rest sr.id
    else
      trackId unmarshal rest respID

/-- A line the decoder processes without ending the sequence: skipped
(blank, comment, or not a data frame), or a data frame that is not [DONE],
decodes successfully, and whose first choice (if any) has no
finish_reason. -/
def cleanFrame (unmarshal : String → Option OpenAIStreamResponse)
    (line : String) : Prop :=
  line = "" ∨ strStartsWith line ":" = true ∨ strStartsWith line "data: " = false ∨
    (strDrop line 6 ≠ "[DONE]" ∧
      ∃ sr, unmarshal (strDrop line 6) = some sr ∧
        ∀ c, sr.choices.head? = some c → c.finishReason = none)

/-- The (all non-terminal) chunks the decoder emits while processing a
list of clean frames: one content chunk per successfully decoded data
frame with a non-empty choices list, mirroring the non-returning branches
of the goroutine. -/
def cleanChunks (unmarshal : String → Option OpenAIStreamResponse) :
    List String → String → List StreamResponse
  | [], _ => []
  | line :: rest, respID =>
    if line = "" ∨ strStartsWith line ":" = true then
      cleanChunks unmarshal rest respID
    else if strStartsWith line "data: " = true then
      if strDrop line 6 = "[DONE]" then []
      else
        match unmarshal (strDrop line 6) with
        | none => []
        | some sr =>
          match sr.choices with
          | [] => cleanChunks unmarshal rest sr.id
          | c :: _ =>
            { id := sr.id, content := c.deltaContent } ::
              cleanChunks unmarshal rest sr.id
    else
      cleanChunks unmarshal rest respID

/-! ## Service registry (internal/ai/service.go) -/

/-- A registered provider: the behaviour of its interface methods.
Streams are modelled as the full chunk sequence the provider's channel
would deliver. -/
structure ProviderM where
  chat : ChatRequest → Except String ChatResponse
  chatStream : ChatRequest → Except String (List StreamResponse)
  name : String
  models : Except String (List String)

/-- Service: the name-to-provider registry. Registration prepends, and
lookup finds the most recent binding, giving the Go map's last-write-wins
semantics. -/
structure Service where
  providers : List (String × ProviderM) := []

/-- The error message of GetProvider for an unregistered name
(Go: fmt.Errorf("provider '%s' not found", name)). -/
def notFoundMsg (name : String) : String :=
  "provider \x27" ++ name ++ "\x27 not found"

/-- Service.RegisterProvider. -/
def Service.registerProvider (s : Service) (name : String) (p : ProviderM) :
    Service :=
  { providers := (name, p) :: s.providers }

/-- Service.GetProvider. -/
def Service.getProvider (s : Service) (name : String) :
    Except String ProviderM :=
  match s.providers.lookup name with
  | some p => .ok p
  | none => .error (notFoundMsg name)

/-- The logging goroutine wrapped around a provider stream in
Service.ChatStream: forwards each chunk, then stops reading after a chunk
with error set or done=true. -/
def logWrap : List StreamResponse → List StreamResponse
  | [] => []
  | c :: rest =>
    c :: (if c.error.isSome then [] else if c.done then [] else logWrap rest)

/-- Service.Chat: looks the provider up and delegates; the timing and log
lines have no effect on the returned value. -/
def Service.chat (s : Service) (name : String) (req : ChatRequest) :
    Except String ChatResponse :=
  match s.getProvider name with
  | .error e => .error e
  | .ok p => p.chat req

/-- Service.ChatStream: looks the provider up, delegates, and wraps the
resulting stream with the logging forwarder. -/
def Service.chatStream (s : Service) (name : String) (req : ChatRequest) :
    Except String (List StreamResponse) :=
  match s.getProvider name with
  | .error e => .error e
  | .ok p =>
    match p.chatStream req with
    | .error e => .error e
    | .ok stream => .ok (logWrap stream)

/-! ## Concrete scenario instances -/

/-- Discriminator for the RequestFailed outcome of makeRequest. -/
def isRequestFailedOutcome : Except ReqError (Nat × String) → Bool
  | .error (.requestFailed _ _) => true
  | _ => false

/-- An attempt oracle in which the vendor answers HTTP 500 on every
attempt. -/
def attemptsAll500 : Nat → AttemptResult := fun _ => .resp 500 "boom"

/-- An envelope-decode oracle for scenarios whose bodies ("boom", "") are
not decodable vendor error envelopes; in particular it is faithful on the
empty string, where json.Unmarshal always fails. -/
def envDecodeNone : String → Option ApiErrorEnvelope := fun _ => none

/-- A client configured with maxRetries = 2. -/
def clientRetries2 : Client :=
  { apiKey := "k", baseURL := DefaultBaseURL, timeout := DefaultTimeout
    maxRetries := 2 }

/-- A configuration carrying a negative MaxRetries, which NewClient
preserves unchanged. -/
def cfgNegativeRetries : Config := { apiKey := "k", maxRetries := -1 }

/-- A stream-chunk unmarshal oracle defined on no payload at all, for
scenarios in which no data frame is ever decoded. -/
def unmarshalNone : String → Option OpenAIStreamResponse := fun _ => none

/-- The choice carried by the specification's streaming scenario frame:
delta content "Hi", null finish_reason. -/
def scenarioChoice : StreamChoice := { deltaContent := "Hi" }

/-- The decoded value of the scenario frame: id "x", one choice. -/
def scenarioResp : OpenAIStreamResponse := { id := "x", choices := [scenarioChoice] }

/-- The scenario frame's JSON payload. -/
def scenarioPayload : String :=
  "\x7b\"id\":\"x\",\"choices\":[\x7b\"delta\":\x7b\"content\":\"Hi\"\x7d,\"finish_reason\":null\x7d]\x7d"

/-- The scenario's SSE line: `data: ` followed by the payload. -/
def scenarioLine : String :=
  "data: \x7b\"id\":\"x\",\"choices\":[\x7b\"delta\":\x7b\"content\":\"Hi\"\x7d,\"finish_reason\":null\x7d]\x7d"

/-- Unmarshal oracle consistent with JSON semantics on the scenario
payload. -/
def scenarioUnmarshal : String → Option OpenAIStreamResponse :=
  fun s => if s = scenarioPayload then some scenarioResp else none

/-- A decoded frame whose choices list is empty, with id "y". -/
def emptyChoicesResp : OpenAIStreamResponse := { id := "y" }

/-- The empty-choices frame's JSON payload. -/
def emptyChoicesPayload : String := "\x7b\"id\":\"y\",\"choices\":[]\x7d"

/-- The empty-choices frame's SSE line. -/
def emptyChoicesLine : String := "data: \x7b\"id\":\"y\",\"choices\":[]\x7d"

/-- Unmarshal oracle consistent with JSON semantics on the empty-choices
payload. -/
def emptyChoicesUnmarshal : String → Option OpenAIStreamResponse :=
  fun s => if s = emptyChoicesPayload then some emptyChoicesResp else none

/-- A provider stub used to populate a registry in scenarios that must
never invoke it. -/
def stubProvider : ProviderM :=
  { chat := fun _ => .ok {}
    chatStream := fun _ => .ok []
    name := "openai"
    models := .ok [] }

/-- A registry holding only the provider name "openai". -/
def svcOpenAIOnly : Service := { providers := [("openai", stubProvider)] }

/-! ## Lemmas about the transport retry loop -/

/-- After `j` retryable attempts starting at index `i`, a non-retryable
attempt stops the loop: `j + 1` attempts in total, sleeping `i+k+1`
seconds after the k-th of them, and the final body left open. -/
theorem retryLoop_stop (attempts : Nat → AttemptResult) :
    ∀ (j i fuel : Nat), j ≤ fuel →
    (∀ k, k < j → retryable (attempts (i + k)) = true) →
    retryable (attempts (i + j)) = false →
    retryLoop attempts i fuel =
      (attempts (i + j), j + 1, List.range' (i + 1) j, true) := by
  intro j
  induction j with
  | zero =>
    intro i fuel _ _ hstop
    rw [Nat.add_zero] at hstop ⊢
    rcases h : attempts i with m | ⟨st, b⟩
    · rw [h] at hstop; simp [retryable] at hstop
    · rw [h] at hstop
      simp only [retryable, decide_eq_false_iff_not, not_le] at hstop
      cases fuel with
      | zero => simp [retryLoop, h, hstop]
      | succ f => simp [retryLoop, h, hstop]
  | succ j ih =>
    intro i fuel hj hk hstop
    cases fuel with
    | zero => omega
    | succ f =>
      have hr : retryable (attempts i) = true := by
        have := hk 0 (Nat.succ_pos j); simpa using this
      have hstop1 : retryable (attempts (i + 1 + j)) = false := by
        have e1 : i + 1 + j = i + (j + 1) := by omega
        rw [e1]; exact hstop
      have hrec := ih (i + 1) f (by omega)
        (fun k hkj => by
          have := hk (k + 1) (by omega)
          have e1 : i + (k + 1) = i + 1 + k := by omega
          rw [e1] at this; exact this)
        hstop1
      have egoal : i + (j + 1) = i + 1 + j := by omega
      rw [egoal, List.range'_succ]
      rcases h : attempts i with m | ⟨st, b⟩
      · rw [h] at hr
        simp only [retryLoop, h, hrec]
      · rw [h] at hr
        simp only [retryable, decide_eq_true_iff] at hr
        simp only [retryLoop, h, if_neg (Nat.not_lt.mpr hr), hrec]

/-- When every attempt up to the fuel bound is retryable, the loop runs
all `fuel + 1` attempts and ends with the last body closed. -/
theorem retryLoop_exhaust (attempts : Nat → AttemptResult) :
    ∀ (fuel i : Nat),
    (∀ k, k ≤ fuel → retryable (attempts (i + k)) = true) →
    retryLoop attempts i fuel =
      (attempts (i + fuel), fuel + 1, List.range' (i + 1) fuel, false) := by
  intro fuel
  induction fuel with
  | zero =>
    intro i hk
    have hr := hk 0 (Nat.le_refl 0)
    rw [Nat.add_zero] at hr ⊢
    rcases h : attempts i with m | ⟨st, b⟩
    · simp [retryLoop, h]
    · rw [h] at hr
      simp only [retryable, decide_eq_true_iff] at hr
      simp [retryLoop, h, Nat.not_lt.mpr hr]
  | succ f ih =>
    intro i hk
    have hr := hk 0 (Nat.zero_le _)
    rw [Nat.add_zero] at hr
    have hrec := ih (i + 1) (fun k hkf => by
      have := hk (k + 1) (by omega)
      have e1 : i + (k + 1) = i + 1 + k := by omega
      rw [e1] at this; exact this)
    have egoal : i + (f + 1) = i + 1 + f := by omega
    rw [egoal, List.range'_succ]
    rcases h : attempts i with m | ⟨st, b⟩
    · simp only [retryLoop, h, hrec]
    · rw [h] at hr
      simp only [retryable, decide_eq_true_iff] at hr
      simp only [retryLoop, h, if_neg (Nat.not_lt.mpr hr), hrec]

/-- The attempt count and sleep schedule of makeRequest are those of its
retry loop, whatever the final classification of the outcome. -/
theorem makeRequest_stats (c : Client)
    (decodeEnv : String → Option ApiErrorEnvelope)
    (att : Nat → AttemptResult) (h : ¬ c.maxRetries < 0) :
    (c.makeRequest decodeEnv att).2 =
      ((retryLoop att 0 c.maxRetries.toNat).2.1,
       (retryLoop att 0 c.maxRetries.toNat).2.2.1) := by
  rcases hr : retryLoop att 0 c.maxRetries.toNat with ⟨r, n, ss, op⟩
  rcases r with msg | ⟨st, body⟩
  · simp [Client.makeRequest, if_neg h, hr]
  · by_cases hst : 400 ≤ st
    · rcases henv : decodeEnv (if op = true then body else "") with _ | env
      · simp [Client.makeRequest, if_neg h, hr, hst, henv]
      · simp [Client.makeRequest, if_neg h, hr, hst, henv]
    · simp [Client.makeRequest, if_neg h, hr, hst]

/-! ## Lemmas about the streaming decoder -/

/-- Every chunk of a decoded sequence except possibly the last one is
non-terminal: `done=false` and no error. -/
theorem decodeLines_dropLast_nonterminal
    (u : String → Option OpenAIStreamResponse) :
    ∀ (lines : List String) (e : Bool) (id : String) (c : StreamResponse),
    c ∈ (decodeLines u lines e id).dropLast → c.isTerminal = false := by
  intro lines
  induction lines with
  | nil =>
    intro e id c hc
    cases e <;> simp [decodeLines] at hc
  | cons line rest ih =>
    intro e id c hc
    simp only [decodeLines] at hc
    by_cases hskip : line = "" ∨ strStartsWith line ":" = true
    · rw [if_pos hskip] at hc; exact ih e id c hc
    · rw [if_neg hskip] at hc
      by_cases hdata : strStartsWith line "data: " = true
      · rw [if_pos hdata] at hc
        by_cases hdone : strDrop line 6 = "[DONE]"
        · rw [if_pos hdone] at hc
          simp at hc
        · rw [if_neg hdone] at hc
          rcases hu : u (strDrop line 6) with _ | sr
          · rw [hu] at hc; simp at hc
          · simp only [hu] at hc
            rcases hch : sr.choices with _ | ⟨c0, cs⟩
            · simp only [hch] at hc; exact ih e sr.id c hc
            · simp only [hch] at hc
              by_cases hfin : c0.finishReason.isSome = true
              · rw [if_pos hfin] at hc; simp at hc
              · rw [if_neg hfin] at hc
                rcases hrec : decodeLines u rest e sr.id with _ | ⟨d, ds⟩
                · rw [hrec] at hc; simp at hc
                · rw [hrec] at hc
                  rw [List.dropLast_cons_of_ne_nil (List.cons_ne_nil d ds)] at hc
                  rcases List.mem_cons.mp hc with h | h
                  · subst h
                    simp [StreamResponse.isTerminal]
                  · exact ih e sr.id c (by rw [hrec]; exact h)
      · rw [if_neg hdata] at hc; exact ih e id c hc

/-- No decoded chunk ever has both `done=true` and an error set. -/
theorem decodeLines_not_done_and_error
    (u : String → Option OpenAIStreamResponse) :
    ∀ (lines : List String) (e : Bool) (id : String) (c : StreamResponse),
    c ∈ decodeLines u lines e id → ¬(c.done = true ∧ c.error.isSome = true) := by
  intro lines
  induction lines with
  | nil =>
    intro e id c hc
    cases e <;> simp [decodeLines] at hc
    · subst hc; simp
  | cons line rest ih =>
    intro e id c hc
    simp only [decodeLines] at hc
    by_cases hskip : line = "" ∨ strStartsWith line ":" = true
    · rw [if_pos hskip] at hc; exact ih e id c hc
    · rw [if_neg hskip] at hc
      by_cases hdata : strStartsWith line "data: " = true
      · rw [if_pos hdata] at hc
        by_cases hdone : strDrop line 6 = "[DONE]"
        · rw [if_pos hdone] at hc
          simp at hc; subst hc; simp
        · rw [if_neg hdone] at hc
          rcases hu : u (strDrop line 6) with _ | sr
          · rw [hu] at hc; simp at hc; subst hc; simp
          · simp only [hu] at hc
            rcases hch : sr.choices with _ | ⟨c0, cs⟩
            · simp only [hch] at hc; exact ih e sr.id c hc
            · simp only [hch] at hc
              by_cases hfin : c0.finishReason.isSome = true
              · rw [if_pos hfin] at hc
                simp at hc; subst hc; simp
              · rw [if_neg hfin] at hc
                rcases List.mem_cons.mp hc with h | h
                · subst h; simp
                · exact ih e sr.id c h
      · rw [if_neg hdata] at hc; exact ih e id c hc

/-- The chunks emitted for a clean prefix are all non-terminal. -/
theorem cleanChunks_nonterminal (u : String → Option OpenAIStreamResponse) :
    ∀ (pre : List String) (id : String) (c : StreamResponse),
    c ∈ cleanChunks u pre id → c.isTerminal = false := by
  intro pre
  induction pre with
  | nil => intro id c hc; simp [cleanChunks] at hc
  | cons line rest ih =>
    intro id c hc
    simp only [cleanChunks] at hc
    by_cases hskip : line = "" ∨ strStartsWith line ":" = true
    · rw [if_pos hskip] at hc; exact ih id c hc
    · rw [if_neg hskip] at hc
      by_cases hdata : strStartsWith line "data: " = true
      · rw [if_pos hdata] at hc
        by_cases hdone : strDrop line 6 = "[DONE]"
        · rw [if_pos hdone] at hc; simp at hc
        · rw [if_neg hdone] at hc
          rcases hu : u (strDrop line 6) with _ | sr
          · rw [hu] at hc; simp at hc
          · simp only [hu] at hc
            rcases hch : sr.choices with _ | ⟨c0, cs⟩
            · simp only [hch] at hc; exact ih sr.id c hc
            · simp only [hch] at hc
              rcases List.mem_cons.mp hc with h | h
              · subst h; simp [StreamResponse.isTerminal]
              · exact ih sr.id c h
      · rw [if_neg hdata] at hc; exact ih id c hc

/-- Processing a prefix of clean frames emits exactly `cleanChunks` and
then continues with the rest of the input, the `responseID` accumulator
having advanced by `trackId`. -/
theorem decodeLines_clean_append
    (u : String → Option OpenAIStreamResponse) :
    ∀ (pre : List String), (∀ l ∈ pre, cleanFrame u l) →
    ∀ (suffix : List String) (e : Bool) (id : String),
    decodeLines u (pre ++ suffix) e id =
      cleanChunks u pre id ++ decodeLines u suffix e (trackId u pre id) := by
  intro pre
  induction pre with
  | nil =>
    intro _ suffix e id
    simp [cleanChunks, trackId]
  | cons line rest ih =>
    intro hclean suffix e id
    have hrest : ∀ l ∈ rest, cleanFrame u l :=
      fun l hl => hclean l (List.mem_cons_of_mem line hl)
    have hline : cleanFrame u line := hclean line (List.mem_cons_self line rest)
    rw [List.cons_append]
    by_cases hskip : line = "" ∨ strStartsWith line ":" = true
    · simp only [decodeLines, cleanChunks, trackId, if_pos hskip]
      exact ih hrest suffix e id
    · by_cases hdata : strStartsWith line "data: " = true
      · rcases hline with h1 | h2 | h3 | ⟨hdone, sr, hsr, hfin⟩
        · exact absurd (Or.inl h1) hskip
        · exact absurd (Or.inr h2) hskip
        · rw [h3] at hdata; exact absurd hdata (by simp)
        · rcases hch : sr.choices with _ | ⟨c0, cs0⟩
          · simp only [decodeLines, cleanChunks, trackId, if_neg hskip,
              if_pos hdata, if_neg hdone, hsr, hch]
            exact ih hrest suffix e sr.id
          · have hfin0 : c0.finishReason = none := hfin c0 (by rw [hch]; rfl)
            simp only [decodeLines, cleanChunks, trackId, if_neg hskip,
              if_pos hdata, if_neg hdone, hsr, hch, hfin0, Option.isSome_none,
              Bool.false_eq_true, if_false]
            rw [ih hrest suffix e sr.id, List.cons_append]
      · simp only [decodeLines, cleanChunks, trackId, if_neg hskip,
          if_neg hdata]
        exact ih hrest suffix e id

/-- The service-side logging forwarder is the identity on any chunk
sequence whose non-final chunks are all non-terminal. -/
theorem logWrap_eq_self :
    ∀ (l : List StreamResponse),
    (∀ c ∈ l.dropLast, c.isTerminal = false) → logWrap l = l := by
  intro l
  induction l with
  | nil => intro _; rfl
  | cons c rest ih =>
    intro h
    cases rest with
    | nil =>
      by_cases he : c.error.isSome = true
      · simp [logWrap, he]
      · by_cases hd : c.done = true
        · simp [logWrap, he, hd]
        · simp [logWrap, he, hd]
    | cons d ds =>
      have hc : c.isTerminal = false := by
        apply h
        rw [List.dropLast_cons_of_ne_nil (List.cons_ne_nil d ds)]
        exact List.mem_cons_self c _
      have he : c.error.isSome = false := by
        simp only [StreamResponse.isTerminal, Bool.or_eq_false_iff] at hc
        exact hc.2
      have hd : c.done = false := by
        simp only [StreamResponse.isTerminal, Bool.or_eq_false_iff] at hc
        exact hc.1
      have hrest : ∀ x ∈ (d :: ds).dropLast, x.isTerminal = false := by
        intro x hx
        apply h
        rw [List.dropLast_cons_of_ne_nil (List.cons_ne_nil d ds)]
        exact List.mem_cons_of_mem c hx
      rw [logWrap, if_neg (by simp [he]), if_neg (by simp [hd]), ih hrest]

/-! ## Claims -/

/-- C1 (counterexample): with maxRetries = 2 and HTTP 500 on every
attempt, exactly 3 attempts are made, but the final failure is the
"API error: 500" HTTPError (on the empty re-read of the closed body), not
a RequestFailed wrap: the RequestFailed branch is reached only when the
network call itself errored. -/
theorem C1_counterexample :
    clientRetries2.makeRequest envDecodeNone attemptsAll500 =
      (.error (.httpError 500 ""), 3, [1, 2]) ∧
    isRequestFailedOutcome
      (clientRetries2.makeRequest envDecodeNone attemptsAll500).1 = false := by
  decide

/-- C1 (amended): for every client with maxRetries = 2, every faithful
envelope oracle and every attempt oracle answering HTTP 500 each time,
makeRequest makes exactly 3 attempts, sleeps 1 s then 2 s between them,
and fails with HTTPError 500 over the empty (closed) body — not with
RequestFailed. -/
theorem C1_all_500_http_error (c : Client)
    (decodeEnv : String → Option ApiErrorEnvelope)
    (att : Nat → AttemptResult)
    (hm : c.maxRetries = 2)
    (henv : decodeEnv "" = none)
    (hatt : ∀ i, ∃ b, att i = .resp 500 b) :
    c.makeRequest decodeEnv att = (.error (.httpError 500 ""), 3, [1, 2]) := by
  have hretry : ∀ k, k ≤ 2 → retryable (att (0 + k)) = true := by
    intro k _
    obtain ⟨b, hb⟩ := hatt (0 + k)
    rw [hb]; simp [retryable]
  have hloop := retryLoop_exhaust att 2 0 hretry
  obtain ⟨b2, hb2⟩ := hatt (0 + 2)
  rw [hb2] at hloop
  have hnot : ¬ c.maxRetries < 0 := by rw [hm]; omega
  have htn : c.maxRetries.toNat = 2 := by rw [hm]; rfl
  rw [Client.makeRequest, if_neg hnot, htn]
  simp only [hloop, hm]
  norm_num
  rw [henv]
  decide

/-- C1 (amended) witness at the concrete scenario client and oracles. -/
theorem C1_all_500_http_error_witness :
    clientRetries2.maxRetries = 2 ∧ envDecodeNone "" = none ∧
    clientRetries2.makeRequest envDecodeNone attemptsAll500 =
      (.error (.httpError 500 ""), 3, [1, 2]) :=
  ⟨rfl, rfl,
    C1_all_500_http_error clientRetries2 envDecodeNone attemptsAll500 rfl rfl
      (fun _ => ⟨"boom", rfl⟩)⟩

/-- C6: makeRequest retries exactly while the attempt errored or returned
status >= 500 (so 4xx and other sub-500 responses stop the loop), and the
sleep schedule between consecutive attempts is linear: 1 s, 2 s, ...,
i.e. `(i+1)` seconds between attempt i and attempt i+1. -/
theorem C6_retry_policy (c : Client)
    (decodeEnv : String → Option ApiErrorEnvelope)
    (att : Nat → AttemptResult) (m : Nat)
    (hm : c.maxRetries = (m : Int)) :
    (∀ j, j ≤ m → (∀ k, k < j → retryable (att k) = true) →
      retryable (att j) = false →
      (c.makeRequest decodeEnv att).2 = (j + 1, List.range' 1 j)) ∧
    ((∀ k, k ≤ m → retryable (att k) = true) →
      (c.makeRequest decodeEnv att).2 = (m + 1, List.range' 1 m)) := by
  have hnot : ¬ c.maxRetries < 0 := by rw [hm]; omega
  have htn : c.maxRetries.toNat = m := by rw [hm]; omega
  constructor
  · intro j hj hk hstop
    have hloop := retryLoop_stop att j 0 m hj
      (fun k hkj => by simpa using hk k hkj) (by simpa using hstop)
    rw [makeRequest_stats c decodeEnv att hnot, htn, hloop]
  · intro hk
    have hloop := retryLoop_exhaust att m 0
      (fun k hkm => by simpa using hk k hkm)
    rw [makeRequest_stats c decodeEnv att hnot, htn, hloop]

/-- C6 witness: a concrete run (500, 500, then 404) under maxRetries = 2
makes all 3 attempts with sleeps [1, 2]; and a run answering 404 at once
stops after 1 attempt with no sleep. -/
theorem C6_retry_policy_witness :
    (clientRetries2.makeRequest envDecodeNone attemptsAll500).2 =
      (3, List.range' 1 2) ∧
    (clientRetries2.makeRequest envDecodeNone (fun _ => .resp 404 "no")).2 =
      (1, List.range' 1 0) :=
  ⟨(C6_retry_policy clientRetries2 envDecodeNone attemptsAll500 2 rfl).2
      (fun k _ => by simp [attemptsAll500, retryable]),
   (C6_retry_policy clientRetries2 envDecodeNone (fun _ => .resp 404 "no") 2
      rfl).1 0 (by omega) (fun k hk => absurd hk (by omega)) (by decide)⟩

/-- C10 (counterexample): NewClient preserves a negative MaxRetries
(only the exact zero value is defaulted to 3), and the resulting client's
makeRequest performs zero attempts — hence zero retries — refuting the
impossibility of configuring a zero-retry client. -/
theorem C10_counterexample :
    (NewClient cfgNegativeRetries).maxRetries = -1 ∧
    ((NewClient cfgNegativeRetries).makeRequest envDecodeNone
        attemptsAll500).2.1 = 0 ∧
    ((NewClient cfgNegativeRetries).makeRequest envDecodeNone
        attemptsAll500).1 = .error .panicNilResp := by
  decide

/-- C10 (amended): NewClient substitutes the defaults for the zero values
of BaseURL, Timeout and MaxRetries; for every configuration with
non-negative MaxRetries the constructed client has maxRetries >= 1 and,
when attempts keep failing retryably, makes at least 2 attempts (hence at
least one retry) — only a negative MaxRetries escapes this. -/
theorem C10_defaults (cfg : Config) :
    ((NewClient cfg).baseURL =
      if cfg.baseURL = "" then DefaultBaseURL else cfg.baseURL) ∧
    ((NewClient cfg).timeout =
      if cfg.timeout = 0 then DefaultTimeout else cfg.timeout) ∧
    ((NewClient cfg).maxRetries =
      if cfg.maxRetries = 0 then 3 else cfg.maxRetries) ∧
    (0 ≤ cfg.maxRetries → 1 ≤ (NewClient cfg).maxRetries) ∧
    (0 ≤ cfg.maxRetries →
      ∀ (decodeEnv : String → Option ApiErrorEnvelope)
        (att : Nat → AttemptResult), (∀ k, retryable (att k) = true) →
        2 ≤ ((NewClient cfg).makeRequest decodeEnv att).2.1) := by
  have hone : 0 ≤ cfg.maxRetries → 1 ≤ (NewClient cfg).maxRetries := by
    intro h0
    simp only [NewClient]
    by_cases hz : cfg.maxRetries = 0
    · rw [if_pos hz]; omega
    · rw [if_neg hz]; omega
  refine ⟨rfl, rfl, rfl, hone, ?_⟩
  intro h0 decodeEnv att hatt
  have h1 := hone h0
  have hnot : ¬ (NewClient cfg).maxRetries < 0 := by omega
  rw [makeRequest_stats (NewClient cfg) decodeEnv att hnot]
  have hloop := retryLoop_exhaust att (NewClient cfg).maxRetries.toNat 0
    (fun k _ => hatt (0 + k))
  rw [hloop]
  have : 1 ≤ (NewClient cfg).maxRetries.toNat := by omega
  simp only
  omega

/-- C10 (amended) witness at a configuration with all-zero optional
fields and a run of retryable attempts. -/
theorem C10_defaults_witness :
    (NewClient { apiKey := "k" }).baseURL = DefaultBaseURL ∧
    (NewClient { apiKey := "k" }).timeout = DefaultTimeout ∧
    (NewClient { apiKey := "k" }).maxRetries = 3 ∧
    2 ≤ ((NewClient { apiKey := "k" }).makeRequest envDecodeNone
        attemptsAll500).2.1 := by
  have h := C10_defaults { apiKey := "k" }
  exact ⟨h.1, h.2.1, h.2.2.1,
    h.2.2.2.2 (by decide) envDecodeNone attemptsAll500
      (fun k => by simp [attemptsAll500, retryable])⟩

/-- The scenario data frame is a clean frame for its oracle: it decodes
to scenarioResp, whose first choice has no finish_reason. -/
theorem scenarioLine_clean : cleanFrame scenarioUnmarshal scenarioLine := by
  refine Or.inr (Or.inr (Or.inr ⟨by decide, scenarioResp, by decide, ?_⟩))
  intro c hc
  have hc' : some scenarioChoice = some c := hc
  rw [← Option.some.inj hc']
  rfl

/-- C2 (counterexample): a streaming body that ends cleanly before any
frame (the empty line sequence, no read error) yields a delivered
sequence with zero terminal chunks, refuting "exactly one terminal
chunk". -/
theorem C2_counterexample :
    decodeLines unmarshalNone [] false "" = [] ∧
    countTerminal (decodeLines unmarshalNone [] false "") = 0 := by
  decide

/-- C2 (amended): every delivered chunk except possibly the last is
non-terminal (so there is at most one terminal chunk and nothing follows
it), and no single chunk ever has both done=true and an error; exactly
one terminal chunk is not guaranteed — a clean underlying EOF without a
terminal frame delivers none. -/
theorem C2_terminal_at_most_one (u : String → Option OpenAIStreamResponse)
    (lines : List String) (e : Bool) (id : String) :
    (∀ c ∈ (decodeLines u lines e id).dropLast, c.isTerminal = false) ∧
    (∀ c ∈ decodeLines u lines e id, ¬(c.done = true ∧ c.error.isSome = true)) :=
  ⟨fun c hc => decodeLines_dropLast_nonterminal u lines e id c hc,
   fun c hc => decodeLines_not_done_and_error u lines e id c hc⟩

/-- C2 (amended) witness at the two-chunk scenario stream. -/
theorem C2_terminal_at_most_one_witness :
    ({ id := "x", content := "Hi" } : StreamResponse).isTerminal = false :=
  (C2_terminal_at_most_one scenarioUnmarshal [scenarioLine, "", "data: [DONE]"]
      false "").1 { id := "x", content := "Hi" } (by decide)

/-- C3 (counterexample): an underlying stream that ends cleanly (no read
error) before any terminal chunk — here a single non-data line — produces
no terminal chunk at all: no StreamReadError chunk is emitted on a clean
premature close. -/
theorem C3_counterexample :
    decodeLines unmarshalNone ["hello"] false "" = [] ∧
    countTerminal (decodeLines unmarshalNone ["hello"] false "") = 0 := by
  decide

/-- C3 (amended): only when the underlying stream ends with a READ ERROR
before a terminal chunk does the decoder append a final terminal chunk
carrying the stream-read error; on a clean end it closes the channel with
no terminal chunk. -/
theorem C3_read_error_terminal (u : String → Option OpenAIStreamResponse)
    (lines : List String) (id : String)
    (h : ∀ l ∈ lines, cleanFrame u l) :
    decodeLines u lines true id =
      cleanChunks u lines id ++ [{ error := some scanErrMsg }] ∧
    decodeLines u lines false id = cleanChunks u lines id ∧
    (∀ c ∈ cleanChunks u lines id, c.isTerminal = false) := by
  have h1 := decodeLines_clean_append u lines h [] true id
  have h2 := decodeLines_clean_append u lines h [] false id
  rw [List.append_nil] at h1 h2
  refine ⟨?_, ?_, fun c hc => cleanChunks_nonterminal u lines id c hc⟩
  · rw [h1]; rfl
  · rw [h2]; simp [decodeLines]

/-- C3 (amended) witness: one clean content frame then a read error. -/
theorem C3_read_error_terminal_witness :
    decodeLines scenarioUnmarshal [scenarioLine] true "" =
      cleanChunks scenarioUnmarshal [scenarioLine] "" ++
        [{ error := some scanErrMsg }] ∧
    decodeLines scenarioUnmarshal [scenarioLine] false "" =
      cleanChunks scenarioUnmarshal [scenarioLine] "" := by
  have h := C3_read_error_terminal scenarioUnmarshal [scenarioLine] ""
    (fun l hl => by rcases List.mem_singleton.mp hl with rfl; exact scenarioLine_clean)
  exact ⟨h.1, h.2.1⟩

/-- C4: for every stream of clean frames followed by `data: [DONE]`, the
decoder delivers the clean frames' content chunks followed by exactly one
final chunk with done=true carrying the last seen response id (the
`trackId` of the frames). -/
theorem C4_done_carries_last_id (u : String → Option OpenAIStreamResponse)
    (frames rest : List String) (e : Bool) (id : String)
    (h : ∀ l ∈ frames, cleanFrame u l) :
    decodeLines u (frames ++ "data: [DONE]" :: rest) e id =
      cleanChunks u frames id ++
        [{ id := trackId u frames id, done := true }] ∧
    (decodeLines u (frames ++ "data: [DONE]" :: rest) e id).getLast? =
      some { id := trackId u frames id, done := true } := by
  have h1 := decodeLines_clean_append u frames h ("data: [DONE]" :: rest) e id
  have hdone : decodeLines u ("data: [DONE]" :: rest) e (trackId u frames id) =
      [{ id := trackId u frames id, done := true }] := by
    simp only [decodeLines]
    rw [if_neg (by decide), if_pos (by decide), if_pos (by decide)]
  rw [h1, hdone]
  exact ⟨rfl, List.getLast?_concat _⟩

/-- C4 witness: the specification's concrete scenario stream delivers
exactly {id:"x", content:"Hi", done:false} then {id:"x", done:true}. -/
theorem C4_done_carries_last_id_witness :
    decodeLines scenarioUnmarshal [scenarioLine, "", "data: [DONE]", ""] false "" =
      [{ id := "x", content := "Hi" }, { id := "x", done := true }] ∧
    decodeLines scenarioUnmarshal [scenarioLine, "", "data: [DONE]", ""] false "" =
      cleanChunks scenarioUnmarshal [scenarioLine, ""] "" ++
        [{ id := trackId scenarioUnmarshal [scenarioLine, ""] "", done := true }] :=
  ⟨by decide,
    (C4_done_carries_last_id scenarioUnmarshal [scenarioLine, ""] [""] false ""
      (fun l hl => by
        rcases List.mem_cons.mp hl with rfl | hl2
        · exact scenarioLine_clean
        · rcases List.mem_singleton.mp hl2 with rfl
          exact Or.inl rfl)).1⟩

/-- C5: a data frame whose payload fails to decode ends the sequence with
exactly one terminal error chunk carrying no id and no content, after only
the non-terminal chunks of the clean prefix; the result is independent of
everything after the malformed frame (no further reads). -/
theorem C5_malformed_frame_terminal (u : String → Option OpenAIStreamResponse)
    (pre : List String) (line : String) (rest rest2 : List String)
    (e e2 : Bool) (id : String)
    (hpre : ∀ l ∈ pre, cleanFrame u l)
    (h0 : ¬(line = "" ∨ strStartsWith line ":" = true))
    (h1 : strStartsWith line "data: " = true)
    (h2 : strDrop line 6 ≠ "[DONE]")
    (h3 : u (strDrop line 6) = none) :
    decodeLines u (pre ++ line :: rest) e id =
      cleanChunks u pre id ++ [{ error := some parseErrMsg }] ∧
    (∀ c ∈ cleanChunks u pre id, c.isTerminal = false) ∧
    decodeLines u (pre ++ line :: rest) e id =
      decodeLines u (pre ++ line :: rest2) e2 id := by
  have hstep : ∀ (any : List String) (e0 : Bool) (id0 : String),
      decodeLines u (line :: any) e0 id0 = [{ error := some parseErrMsg }] := by
    intro any e0 id0
    simp only [decodeLines]
    rw [if_neg h0, if_pos h1, if_neg h2]
    simp only [h3]
  have ha := decodeLines_clean_append u pre hpre (line :: rest) e id
  have hb := decodeLines_clean_append u pre hpre (line :: rest2) e2 id
  rw [ha, hb, hstep, hstep]
  exact ⟨rfl, fun c hc => cleanChunks_nonterminal u pre id c hc, rfl⟩

/-- C5 witness: a malformed frame with material after it; the output is
one error chunk, the same whether or not anything follows. -/
theorem C5_malformed_frame_terminal_witness :
    decodeLines unmarshalNone ["data: notjson", "data: [DONE]"] false "" =
      cleanChunks unmarshalNone [] "" ++ [{ error := some parseErrMsg }] ∧
    decodeLines unmarshalNone ["data: notjson", "data: [DONE]"] false "" =
      decodeLines unmarshalNone ["data: notjson"] true "" := by
  have h := C5_malformed_frame_terminal unmarshalNone [] "data: notjson"
    ["data: [DONE]"] [] false true ""
    (fun l hl => absurd hl (List.not_mem_nil l))
    (by decide) (by decide) (by decide) rfl
  exact ⟨h.1, h.2.2⟩

/-- C7: the Service's logging wrapper is purely observational — it
forwards the provider's chunk sequence unchanged: the identity holds for
every sequence the openai decoder can deliver, and for every sequence
whose non-final chunks are non-terminal (the data-model invariant shape). -/
theorem C7_log_wrapper_identity (u : String → Option OpenAIStreamResponse)
    (lines : List String) (e : Bool) (id : String)
    (stream : List StreamResponse) :
    logWrap (decodeLines u lines e id) = decodeLines u lines e id ∧
    ((∀ c ∈ stream.dropLast, c.isTerminal = false) →
      logWrap stream = stream) :=
  ⟨logWrap_eq_self _ (fun c hc => decodeLines_dropLast_nonterminal u lines e id c hc),
   fun h => logWrap_eq_self stream h⟩

/-- C7 witness on the scenario stream and a concrete wellformed list. -/
theorem C7_log_wrapper_identity_witness :
    logWrap (decodeLines scenarioUnmarshal [scenarioLine, "data: [DONE]"] false "") =
      decodeLines scenarioUnmarshal [scenarioLine, "data: [DONE]"] false "" ∧
    logWrap [{ content := "a" }, { done := true }] =
      [{ content := "a" }, { done := true }] :=
  ⟨(C7_log_wrapper_identity scenarioUnmarshal [scenarioLine, "data: [DONE]"]
      false "" []).1,
   (C7_log_wrapper_identity scenarioUnmarshal [] false ""
      [{ content := "a" }, { done := true }]).2 (by decide)⟩

/-- C8: looking up an unregistered provider name fails with the NotFound
error, and Service.Chat / Service.ChatStream with that name surface the
very same error, for every registry state with that name absent and every
provider behaviour — so no provider operation can have been invoked. -/
theorem C8_not_found (s : Service) (name : String) (req : ChatRequest)
    (h : s.providers.lookup name = none) :
    s.getProvider name = .error (notFoundMsg name) ∧
    s.chat name req = .error (notFoundMsg name) ∧
    s.chatStream name req = .error (notFoundMsg name) := by
  have hg : s.getProvider name = .error (notFoundMsg name) := by
    simp only [Service.getProvider, h]
  refine ⟨hg, ?_, ?_⟩
  · simp only [Service.chat, hg]
  · simp only [Service.chatStream, hg]

/-- C8 witness: a registry holding only "openai" rejects "claude". -/
theorem C8_not_found_witness :
    svcOpenAIOnly.getProvider "claude" = .error (notFoundMsg "claude") ∧
    svcOpenAIOnly.chat "claude" {} = .error (notFoundMsg "claude") ∧
    svcOpenAIOnly.chatStream "claude" {} = .error (notFoundMsg "claude") :=
  C8_not_found svcOpenAIOnly "claude" {} rfl

/-- C9: a data frame that decodes to an empty choices list emits no chunk
and the decoder continues with the frame's id recorded as lastSeenId, so a
later [DONE] terminal chunk carries that id. -/
theorem C9_empty_choices (u : String → Option OpenAIStreamResponse)
    (line : String) (rest : List String) (e : Bool) (id : String)
    (sr : OpenAIStreamResponse)
    (h0 : ¬(line = "" ∨ strStartsWith line ":" = true))
    (h1 : strStartsWith line "data: " = true)
    (h2 : strDrop line 6 ≠ "[DONE]")
    (h3 : u (strDrop line 6) = some sr)
    (h4 : sr.choices = []) :
    decodeLines u (line :: rest) e id = decodeLines u rest e sr.id ∧
    trackId u (line :: rest) id = trackId u rest sr.id ∧
    decodeLines u (line :: "data: [DONE]" :: rest) e id =
      [{ id := sr.id, done := true }] := by
  have hstep : ∀ (any : List String),
      decodeLines u (line :: any) e id = decodeLines u any e sr.id := by
    intro any
    simp only [decodeLines]
    rw [if_neg h0, if_pos h1, if_neg h2]
    simp only [h3, h4]
  have htrack : trackId u (line :: rest) id = trackId u rest sr.id := by
    simp only [trackId]
    rw [if_neg h0, if_pos h1, if_neg h2]
    simp only [h3]
  have hdone : decodeLines u ("data: [DONE]" :: rest) e sr.id =
      [{ id := sr.id, done := true }] := by
    simp only [decodeLines]
    rw [if_neg (by decide), if_pos (by decide), if_pos (by decide)]
  exact ⟨hstep rest, htrack, by rw [hstep ("data: [DONE]" :: rest), hdone]⟩

/-- C9 witness: a concrete empty-choices frame with id "y" followed by
[DONE] yields exactly the terminal chunk {id:"y", done:true}. -/
theorem C9_empty_choices_witness :
    decodeLines emptyChoicesUnmarshal [emptyChoicesLine] false "" =
      decodeLines emptyChoicesUnmarshal [] false "y" ∧
    decodeLines emptyChoicesUnmarshal [emptyChoicesLine, "data: [DONE]"] false "" =
      [{ id := "y", done := true }] := by
  have h := C9_empty_choices emptyChoicesUnmarshal emptyChoicesLine [] false ""
    emptyChoicesResp (by decide) (by decide) (by decide) (by decide) rfl
  exact ⟨h.1, h.2.2⟩

end AIWrapper
